import Mathlib

/-!
Shallow embedding of `src/port-assignments/port-assignments-to-rust-match.py`.

The script reads IANA port-assignment records from an XML file, validates
each record's port specification (a single decimal number or a
dash-delimited range), aggregates the ports into a dictionary keyed by the
lowercased `(service, protocol)` pair, and prints a Rust `match` statement
mapping each pair to its sorted port list, with a fallback arm returning a
`PortError::UnknownMnemonic` carrying the queried service and protocol.

Pure functions of the script become Lean functions; the record-processing
loop becomes a fold over the record list; Python exceptions become
`Except String`; the insertion-ordered `dict` becomes a list of entries
extended at the back exactly when a key is first seen.
-/

namespace PortAssignments

/-- Embeds `TAG_PREFIX` from the script: the IANA XML namespace prefix. -/
def TAG_PREFIX : String := "\x7bhttp://www.iana.org/assignments\x7d"

/-- Embeds `TAG_RECORD` from the script. -/
def TAG_RECORD : String := TAG_PREFIX ++ "record"

/-- Embeds `TAG_NAME` from the script. -/
def TAG_NAME : String := TAG_PREFIX ++ "name"

/-- Embeds `TAG_PROTOCOL` from the script. -/
def TAG_PROTOCOL : String := TAG_PREFIX ++ "protocol"

/-- Embeds `TAG_PORT` from the script (the `number` subelement). -/
def TAG_PORT : String := TAG_PREFIX ++ "number"

/-- One child element of the XML root as the script observes it: its tag,
and the text of the `name`, `protocol` and `number` subelements looked up by
`parse_record`.  A field is `none` when `record.find(...)` returns `None` or
the found element's `.text` is `None` (ElementTree reports both a missing
subelement and a subelement without text this way). -/
structure XmlChild where
  tag : String
  nameText : Option String
  protocolText : Option String
  portText : Option String
deriving DecidableEq

/-- Model of Python `str.lower()` (character-wise lowercasing; the
registry data is ASCII). -/
def pyLower (s : String) : String := String.mk (s.data.map Char.toLower)

/-- Embeds `parse_record` from the script: require all three fields, then return
the lowercased `(name, protocol, port)` triple; `none` is the skip signal. -/
def parse_record (record : XmlChild) : Option (String × String × String) :=
  match record.nameText with
  | none => none
  | some name =>
    match record.protocolText with
    | none => none
    | some protocol =>
      match record.portText with
      | none => none
      | some port => some (pyLower name, pyLower protocol, pyLower port)

/-- Strip leading and trailing whitespace from a character list (the
stripping Python `int(str)` performs on its argument). -/
def pyStrip (l : List Char) : List Char :=
  ((l.dropWhile Char.isWhitespace).reverse.dropWhile Char.isWhitespace).reverse

/-- Numeric value of a decimal digit character. -/
def digitVal (c : Char) : Nat := c.toNat - '0'.toNat

/-- Remaining digits of a Python decimal literal after the first digit:
decimal digits, optionally separated by single underscores. -/
def pyDigitsRest : List Char → Nat → Option Nat
  | [], acc => some acc
  | '_' :: c :: cs, acc =>
    if c.isDigit then pyDigitsRest cs (acc * 10 + digitVal c) else none
  | c :: cs, acc =>
    if c.isDigit then pyDigitsRest cs (acc * 10 + digitVal c) else none

/-- A Python decimal digit run: at least one digit, then `pyDigitsRest`. -/
def pyDigitsStart : List Char → Option Nat
  | [] => none
  | c :: cs => if c.isDigit then pyDigitsRest cs (digitVal c) else none

/-- Optional sign followed by a decimal digit run. -/
def pyIntCore : List Char → Option Int
  | '+' :: cs => (pyDigitsStart cs).map (fun n => (n : Int))
  | '-' :: cs => (pyDigitsStart cs).map (fun n => -(n : Int))
  | cs => (pyDigitsStart cs).map (fun n => (n : Int))

/-- Model of Python `int(s)` with base 10: surrounding whitespace is
stripped, then an optional sign and decimal digits (single underscores
allowed between digits).  `none` models the `ValueError` raised on any
other input. -/
def pyInt (s : String) : Option Int := pyIntCore (pyStrip s.data)

/-- The `ValueError` message Python `int()` raises on an unparseable
literal (raised inside the `try` of `verify_port`, hence never surfaced). -/
def pyIntErrMsg (s : String) : String :=
  "invalid literal for int() with base 10: \x27" ++ s ++ "\x27"

/-- The "Port too small" message raised (and then swallowed) inside the
`try` block of `verify_port`. -/
def portTooSmallMsg (n : Int) : String :=
  "Port too small. Expected port to either be a number (i.e. sequence of digits), in the range 0 - 65,535 (inclusive) but it was \x27" ++ toString n ++ "\x27"

/-- The "Port too large" message raised (and then swallowed) inside the
`try` block of `verify_port`. -/
def portTooLargeMsg (n : Int) : String :=
  "Port too large. Expected port to either be a number (i.e. sequence of digits), in the range 0 - 65,535 (inclusive) but it was \x27" ++ toString n ++ "\x27"

/-- The generic message `verify_port` raises from its `except` handler,
built from the original string argument ("bit" is the source's typo). -/
def invalidPortMsg (port : String) : String :=
  "Expected port to either be a number (i.e. sequence of digits), in the range 0 - 65,535 (inclusive) bit it was \x27" ++ port ++ "\x27"

/-- Body of the `try` block of `verify_port`: parse with `int`, then raise
`ValueError` with a dedicated message when the value is negative or at
least `2 ** 16`, otherwise return it. -/
def verify_port_try (port : String) : Except String Int :=
  match pyInt port with
  | none => Except.error (pyIntErrMsg port)
  | some int_port =>
    if int_port < 0 then Except.error (portTooSmallMsg int_port)
    else if int_port ≥ 2 ^ 16 then Except.error (portTooLargeMsg int_port)
    else Except.ok int_port

/-- Embeds `verify_port` from the script.  The bare `except:` catches every error
raised in the `try` block — including the dedicated too-small / too-large
`ValueError`s — and raises the generic message built from the original
string argument instead. -/
def verify_port (port : String) : Except String Int :=
  match verify_port_try port with
  | Except.ok n => Except.ok n
  | Except.error _ => Except.error (invalidPortMsg port)

/-- Helper for `splitDash`: accumulate the current segment (reversed). -/
def splitDashAux : List Char → List Char → List String
  | [], acc => [String.mk acc.reverse]
  | '-' :: rest, acc => String.mk acc.reverse :: splitDashAux rest []
  | c :: rest, acc => splitDashAux rest (c :: acc)

/-- Model of Python `port.split("-")`: always at least one segment; empty
segments are kept (so `"-1"` splits into `["", "1"]`). -/
def splitDash (s : String) : List String := splitDashAux s.data []

/-- Python `range(lo, hi + 1)` as a list of integers. -/
def pyRange (lo hi : Int) : List Int :=
  (List.range (hi + 1 - lo).toNat).map (fun i : Nat => lo + (i : Int))

/-- The `ValueError` message of the `else` branch of the port-spec
dispatch, which names the malformed spec. -/
def invalidFormatMsg (port : String) : String :=
  "Expected port to either be a number (i.e. sequence of digits) or a range (i.e. two sequences of digits separated by a dash \x27-\x27). Instead, port was \x27" ++ port ++ "\x27"

/-- The port-spec dispatch of the main loop, as a standalone resolver:
one segment is a single verified port; two segments are verified bounds,
swapped when reversed, expanded to `range(lower, upper + 1)`; any other
segment count raises.  (In the script the expanded ports feed the
aggregation loop one by one; `processRecord` below folds over this list.) -/
def resolvePortSpec (port : String) : Except String (List Int) :=
  match splitDash port with
  | [_] =>
    match verify_port port with
    | Except.error e => Except.error e
    | Except.ok p => Except.ok [p]
  | [lo_s, hi_s] =>
    match verify_port lo_s with
    | Except.error e => Except.error e
    | Except.ok lower_port =>
      match verify_port hi_s with
      | Except.error e => Except.error e
      | Except.ok upper_port =>
        let lower := if lower_port > upper_port then upper_port else lower_port
        let upper := if lower_port > upper_port then lower_port else upper_port
        Except.ok (pyRange lower upper)
  | _ => Except.error (invalidFormatMsg port)

/-- The `Service` class.  `ports` starts as a set of integers and becomes
a sequence of strings at finalization (the `Union[Set[int], List[int]]`
annotation; the finalized value is in fact the mapped strings). -/
structure Service where
  name : String
  protocol : String
  ports : Sum (Finset Int) (List String)
deriving DecidableEq

/-- Embeds `Service.__init__`: a fresh entry seeded with one port. -/
def Service.init (name protocol : String) (port : Int) : Service :=
  ⟨name, protocol, Sum.inl {port}⟩

/-- The `AttributeError` Python raises when `add_port` runs after
`finalize` (the finalized `ports` no longer has an `add` method). -/
def attrErrMsg : String :=
  "AttributeError: \x27map\x27 object has no attribute \x27add\x27"

/-- Embeds `Service.add_port`: `self.ports.add(port)`.  On a finalized entry the
call crashes with `AttributeError`, modelled as an error. -/
def Service.add_port (s : Service) (port : Int) : Except String Service :=
  match s.ports with
  | Sum.inl ps => Except.ok { s with ports := Sum.inl (insert port ps) }
  | Sum.inr _ => Except.error attrErrMsg

/-- The numeric port list of an entry in sorted order (what `finalize`
stringifies).  In the script `finalize` reads the emit-loop variable
`service`, which is exactly the entry being finalized, so it acts on the
entry itself. -/
def Service.sortedPorts (s : Service) : List Int :=
  match s.ports with
  | Sum.inl ps => ps.sort (· ≤ ·)
  | Sum.inr _ => []

/-- Embeds `Service.finalize`: convert the port set to a numerically sorted list
and then to strings.  The emit loop calls this exactly once per entry,
after the whole input has been consumed. -/
def Service.finalize (s : Service) : Service :=
  match s.ports with
  | Sum.inl ps =>
    { s with ports := Sum.inr ((ps.sort (· ≤ ·)).map (fun port => toString port)) }
  | Sum.inr l => { s with ports := Sum.inr l }

/-- The `(service, protocol)` dictionary key of an entry. -/
def Service.key (s : Service) : String × String := (s.name, s.protocol)

/-- Embeds `services[(service, protocol)].add_port(port)`: update the unique
entry with the given key (the dictionary holds one entry per key). -/
def updateEntry : List Service → String → String → Int → Except String (List Service)
  | [], _, _, _ => Except.error "KeyError"
  | e :: rest, service, protocol, port =>
    if e.name = service ∧ e.protocol = protocol then
      match e.add_port port with
      | Except.ok e2 => Except.ok (e2 :: rest)
      | Except.error msg => Except.error msg
    else
      match updateEntry rest service protocol port with
      | Except.ok rest2 => Except.ok (e :: rest2)
      | Except.error msg => Except.error msg

/-- One aggregation step of the main loop: if `(service, protocol)` is a
key of the dictionary, add the port to its entry; otherwise insert a fresh
entry at the end (Python dicts iterate in insertion order). -/
def tableAdd (services : List Service) (service protocol : String) (port : Int) :
    Except String (List Service) :=
  if services.any (fun e => e.name == service && e.protocol == protocol) then
    updateEntry services service protocol port
  else
    Except.ok (services ++ [Service.init service protocol port])

/-- Processing of one child of the XML root by the main loop: skip
non-record tags, skip incomplete records, resolve the port spec and add
each resolved port to the table. -/
def processRecord (services : List Service) (child : XmlChild) :
    Except String (List Service) :=
  if child.tag ≠ TAG_RECORD then Except.ok services
  else
    match parse_record child with
    | none => Except.ok services
    | some (service, protocol, port) =>
      match resolvePortSpec port with
      | Except.error e => Except.error e
      | Except.ok ports =>
        ports.foldlM (fun t p => tableAdd t service protocol p) services

/-- The whole reading phase of the script: fold the main loop over the
children of the XML root, starting from the empty dictionary. -/
def buildTable (children : List XmlChild) : Except String (List Service) :=
  children.foldlM processRecord []

/-- The emitted line of one entry:
`        ("name", "protocol") => Ok(&[p1, p2, ...]),`. -/
def emitEntry (s : Service) : String :=
  let fin := s.finalize
  let portsStr :=
    match fin.ports with
    | Sum.inr strs => String.intercalate ", " strs
    | Sum.inl _ => ""
  "        (\"" ++ fin.name ++ "\", \"" ++ fin.protocol ++ "\") => Ok(&[" ++ portsStr ++ "]),"

/-- The fallback arm of the emitted Rust `match`: an `UnknownMnemonic`
error carrying the queried service string and protocol. -/
def fallbackLine : String :=
  "        _ => Err(PortError::UnknownMnemonic(service.to_string(), protocol.clone()))"

/-- The fixed lines printed before the per-entry lines. -/
def headerLines : List String :=
  ["use super::\x7bprotocol::Protocol, ports::PortError\x7d;",
   "",
   "#[inline]",
   "pub fn port_from_service(service: &str, protocol: &Protocol) -> Result<&\x27static [u16], PortError> \x7b",
   "    match (service.to_lowercase().as_str(), protocol.mnemonic().to_lowercase().as_str()) \x7b"]

/-- The fixed lines printed after the per-entry lines, starting with the
fallback arm. -/
def footerLines : List String :=
  [fallbackLine, "    \x7d", "\x7d"]

/-- The full standard output of a run of the script: build the table, then
finalize and print each entry between the fixed header and footer. -/
def outputLines (children : List XmlChild) : Except String (List String) :=
  (buildTable children).map
    (fun table => headerLines ++ table.map emitEntry ++ footerLines)

/-- Semantics of the Rust `match` the script emits: lowercase the queried
service and protocol mnemonic, return the matching arm's port list, and
fall through to the `_` arm, which reports the queried pair as structured
`UnknownMnemonic` failure data. -/
def generatedLookup (table : List Service) (service protocol : String) :
    Except (String × String) (List Int) :=
  match table.find? (fun e => e.name == pyLower service && e.protocol == pyLower protocol) with
  | some e => Except.ok e.sortedPorts
  | none => Except.error (service, protocol)

/-- The keys of the dictionary, in insertion order. -/
def keys (t : List Service) : List (String × String) := t.map Service.key

/-- The key a child contributes to the dictionary: `none` when it has a
non-record tag or is skipped by `parse_record`. -/
def contributedKey (child : XmlChild) : Option (String × String) :=
  if child.tag = TAG_RECORD then
    (parse_record child).map (fun r => (r.1, r.2.1))
  else none

/-- All keys contributed by a record sequence, in input order, with
multiplicity. -/
def contribKeys (children : List XmlChild) : List (String × String) :=
  children.filterMap contributedKey

/-- The keys of `l` not in `seen`, in order of first occurrence. -/
def newKeysFrom : List (String × String) → List (String × String) → List (String × String)
  | _, [] => []
  | seen, k :: ks =>
    if k ∈ seen then newKeysFrom seen ks
    else k :: newKeysFrom (seen ++ [k]) ks

/-- The distinct keys of `l` in order of first encounter (the iteration
order of an insertion-ordered dictionary built from `l`). -/
def firstEncounterKeys (l : List (String × String)) : List (String × String) :=
  newKeysFrom [] l

/-- All entry port sets are still Python sets (no entry finalized). -/
def IsBuilding (t : List Service) : Prop :=
  ∀ e ∈ t, ∃ ps, e.ports = Sum.inl ps

/-- Every port of every (building) entry is a valid 16-bit port. -/
def PortsValid (t : List Service) : Prop :=
  ∀ e ∈ t, ∀ ps, e.ports = Sum.inl ps → ∀ y ∈ ps, 0 ≤ y ∧ y < 65536

theorem mem_pyRange (x lo hi : Int) : x ∈ pyRange lo hi ↔ lo ≤ x ∧ x ≤ hi := by
  constructor
  · intro hx
    obtain ⟨i, hi2, hEq⟩ := List.mem_map.mp hx
    rw [List.mem_range] at hi2
    omega
  · rintro ⟨h1, h2⟩
    refine List.mem_map.mpr ⟨(x - lo).toNat, ?_, ?_⟩
    · rw [List.mem_range]
      omega
    · omega

theorem pyRange_ne_nil (lo hi : Int) (h : lo ≤ hi) : pyRange lo hi ≠ [] := by
  simp only [pyRange, ne_eq, List.map_eq_nil_iff, List.range_eq_nil]
  omega

theorem verify_port_ok_iff (s : String) (n : Int) :
    verify_port s = Except.ok n ↔ pyInt s = some n ∧ 0 ≤ n ∧ n < 65536 := by
  unfold verify_port verify_port_try
  cases h : pyInt s with
  | none => simp
  | some m =>
    by_cases h1 : m < 0
    · simp only [h1, if_true]
      constructor
      · intro h'
        cases h'
      · rintro ⟨hm, h2, _⟩
        cases hm
        omega
    · by_cases h2 : m ≥ 2 ^ 16
      · simp only [h1, if_false, h2, if_true]
        constructor
        · intro h'
          cases h'
        · rintro ⟨hm, _, h3⟩
          cases hm
          omega
      · simp only [h1, if_false, h2]
        constructor
        · intro h'
          cases h'
          exact ⟨rfl, by omega, by omega⟩
        · rintro ⟨hm, _, _⟩
          cases hm
          rfl

theorem verify_port_ok_bounds (s : String) (n : Int)
    (h : verify_port s = Except.ok n) : 0 ≤ n ∧ n < 65536 :=
  ((verify_port_ok_iff s n).mp h).2

theorem verify_port_error_msg (s e : String) (h : verify_port s = Except.error e) :
    e = invalidPortMsg s := by
  unfold verify_port at h
  cases h' : verify_port_try s with
  | ok n => rw [h'] at h; cases h
  | error m => rw [h'] at h; cases h; rfl

theorem resolve_two_segments (s a b : String) (pa pb : Int)
    (hs : splitDash s = [a, b])
    (ha : verify_port a = Except.ok pa) (hb : verify_port b = Except.ok pb) :
    resolvePortSpec s = Except.ok (pyRange (min pa pb) (max pa pb)) := by
  unfold resolvePortSpec
  rw [hs]
  dsimp only
  rw [ha, hb]
  dsimp only
  have hmin : (if pa > pb then pb else pa) = min pa pb := by
    rw [min_def]; split_ifs <;> omega
  have hmax : (if pa > pb then pa else pb) = max pa pb := by
    rw [max_def]; split_ifs <;> omega
  rw [hmin, hmax]

theorem resolvePortSpec_ok_ne_nil (s : String) (l : List Int)
    (h : resolvePortSpec s = Except.ok l) : l ≠ [] := by
  unfold resolvePortSpec at h
  rcases hs : splitDash s with _ | ⟨a, _ | ⟨b, _ | ⟨c, rest⟩⟩⟩ <;> rw [hs] at h <;>
      dsimp only at h
  · cases h
  · cases hv : verify_port s with
    | error e => rw [hv] at h; cases h
    | ok p => rw [hv] at h; dsimp only at h; cases h; simp
  · cases h1 : verify_port a with
    | error e => rw [h1] at h; cases h
    | ok p1 =>
      rw [h1] at h
      dsimp only at h
      cases h2 : verify_port b with
      | error e => rw [h2] at h; cases h
      | ok p2 =>
        rw [h2] at h
        dsimp only at h
        cases h
        apply pyRange_ne_nil
        split_ifs <;> omega
  · cases h

theorem resolvePortSpec_ok_bounds (s : String) (l : List Int)
    (h : resolvePortSpec s = Except.ok l) : ∀ x ∈ l, 0 ≤ x ∧ x < 65536 := by
  unfold resolvePortSpec at h
  rcases hs : splitDash s with _ | ⟨a, _ | ⟨b, _ | ⟨c, rest⟩⟩⟩ <;> rw [hs] at h <;>
      dsimp only at h
  · cases h
  · cases hv : verify_port s with
    | error e => rw [hv] at h; cases h
    | ok p =>
      rw [hv] at h
      dsimp only at h
      cases h
      intro x hx
      rw [List.mem_singleton] at hx
      subst hx
      exact verify_port_ok_bounds s x hv
  · cases h1 : verify_port a with
    | error e => rw [h1] at h; cases h
    | ok p1 =>
      rw [h1] at h
      dsimp only at h
      cases h2 : verify_port b with
      | error e => rw [h2] at h; cases h
      | ok p2 =>
        rw [h2] at h
        dsimp only at h
        cases h
        intro x hx
        rw [mem_pyRange] at hx
        have b1 := verify_port_ok_bounds a p1 h1
        have b2 := verify_port_ok_bounds b p2 h2
        refine ⟨?_, ?_⟩ <;>
          · revert hx
            split_ifs <;> omega
  · cases h

theorem newKeysFrom_cons (seen : List (String × String)) (k : String × String)
    (ks : List (String × String)) :
    newKeysFrom seen (k :: ks) =
      if k ∈ seen then newKeysFrom seen ks else k :: newKeysFrom (seen ++ [k]) ks := rfl

theorem keys_any (t : List Service) (n p : String) :
    (t.any (fun e => e.name == n && e.protocol == p) = true) ↔ (n, p) ∈ keys t := by
  simp only [List.any_eq_true, Bool.and_eq_true, beq_iff_eq, keys, List.mem_map,
    Service.key]
  constructor
  · rintro ⟨e, he, h1, h2⟩
    exact ⟨e, he, by rw [h1, h2]⟩
  · rintro ⟨e, he, hk⟩
    rw [Prod.mk.injEq] at hk
    exact ⟨e, he, hk.1, hk.2⟩

theorem updateEntry_spec (n p : String) (x : Int) :
    ∀ t : List Service, IsBuilding t → (n, p) ∈ keys t →
    ∃ t2, updateEntry t n p x = Except.ok t2 ∧ IsBuilding t2 ∧ keys t2 = keys t ∧
      (PortsValid t → 0 ≤ x ∧ x < 65536 → PortsValid t2)
  | [], _, hk => absurd hk (by simp [keys])
  | e :: rest, hb, hk => by
    by_cases hmatch : e.name = n ∧ e.protocol = p
    · obtain ⟨ps, hps⟩ := hb e (List.mem_cons_self e rest)
      have hadd : e.add_port x =
          Except.ok { e with ports := Sum.inl (insert x ps) } := by
        unfold Service.add_port
        rw [hps]
      refine ⟨{ e with ports := Sum.inl (insert x ps) } :: rest, ?_, ?_, ?_, ?_⟩
      · simp only [updateEntry, if_pos hmatch, hadd]
      · intro e2 he2
        rcases List.mem_cons.mp he2 with rfl | h2
        · exact ⟨insert x ps, rfl⟩
        · exact hb e2 (List.mem_cons_of_mem e h2)
      · simp [keys, Service.key]
      · intro hv hx e2 he2 ps2 hps2 y hy
        rcases List.mem_cons.mp he2 with rfl | h2
        · simp only at hps2
          cases hps2
          rcases Finset.mem_insert.mp hy with rfl | hy2
          · exact hx
          · exact hv e (List.mem_cons_self e rest) ps hps y hy2
        · exact hv e2 (List.mem_cons_of_mem e h2) ps2 hps2 y hy
    · have hk2 : (n, p) ∈ keys rest := by
        have hcons : keys (e :: rest) = e.key :: keys rest := rfl
        rw [hcons] at hk
        rcases List.mem_cons.mp hk with h1 | h1
        · exact absurd ⟨(Prod.ext_iff.mp h1.symm).1, (Prod.ext_iff.mp h1.symm).2⟩ hmatch
        · exact h1
      have hbrest : IsBuilding rest := fun e2 he2 => hb e2 (List.mem_cons_of_mem e he2)
      obtain ⟨rest2, hre, hbu, hke, hva⟩ := updateEntry_spec n p x rest hbrest hk2
      refine ⟨e :: rest2, ?_, ?_, ?_, ?_⟩
      · simp only [updateEntry, if_neg hmatch, hre]
      · intro e2 he2
        rcases List.mem_cons.mp he2 with rfl | h2
        · exact hb e2 (List.mem_cons_self e2 rest)
        · exact hbu e2 h2
      · exact congrArg (fun l => e.key :: l) hke
      · intro hv hx
        have hvrest : PortsValid rest := fun e2 he2 => hv e2 (List.mem_cons_of_mem e he2)
        have hv2 := hva hvrest hx
        intro e2 he2 ps2 hps2 y hy
        rcases List.mem_cons.mp he2 with rfl | h2
        · exact hv e2 (List.mem_cons_self e2 rest) ps2 hps2 y hy
        · exact hv2 e2 h2 ps2 hps2 y hy

theorem tableAdd_spec (t : List Service) (n p : String) (x : Int) (hb : IsBuilding t) :
    ∃ t2, tableAdd t n p x = Except.ok t2 ∧ IsBuilding t2 ∧
      keys t2 = (if (n, p) ∈ keys t then keys t else keys t ++ [(n, p)]) ∧
      (PortsValid t → 0 ≤ x ∧ x < 65536 → PortsValid t2) := by
  by_cases hk : (n, p) ∈ keys t
  · obtain ⟨t2, hupd, hbu, hke, hva⟩ := updateEntry_spec n p x t hb hk
    refine ⟨t2, ?_, hbu, ?_, hva⟩
    · rw [tableAdd, if_pos ((keys_any t n p).mpr hk)]
      exact hupd
    · rw [if_pos hk]
      exact hke
  · refine ⟨t ++ [Service.init n p x], ?_, ?_, ?_, ?_⟩
    · rw [tableAdd, if_neg]
      intro hc
      exact hk ((keys_any t n p).mp hc)
    · intro e2 he2
      rcases List.mem_append.mp he2 with h2 | h2
      · exact hb e2 h2
      · rw [List.mem_singleton] at h2
        subst h2
        exact ⟨{x}, rfl⟩
    · rw [if_neg hk]
      simp [keys, Service.init, Service.key]
    · intro hv hx e2 he2 ps2 hps2 y hy
      rcases List.mem_append.mp he2 with h2 | h2
      · exact hv e2 h2 ps2 hps2 y hy
      · rw [List.mem_singleton] at h2
        subst h2
        simp only [Service.init] at hps2
        cases hps2
        rw [Finset.mem_singleton] at hy
        subst hy
        exact hx

theorem foldAdd_spec (n p : String) :
    ∀ (l : List Int) (t : List Service), IsBuilding t →
    ∃ t2, l.foldlM (fun acc x => tableAdd acc n p x) t = Except.ok t2 ∧ IsBuilding t2 ∧
      (l = [] → t2 = t) ∧
      (l ≠ [] → keys t2 = (if (n, p) ∈ keys t then keys t else keys t ++ [(n, p)])) ∧
      (PortsValid t → (∀ x ∈ l, 0 ≤ x ∧ x < 65536) → PortsValid t2)
  | [], t, hb => ⟨t, by simp [List.foldlM_nil]; rfl, hb, fun _ => rfl,
      fun h => absurd rfl h, fun hv _ => hv⟩
  | x :: xs, t, hb => by
    obtain ⟨t1, hstep, hb1, hk1, hva1⟩ := tableAdd_spec t n p x hb
    obtain ⟨t2, hfold, hb2, hnil2, hk2, hva2⟩ := foldAdd_spec n p xs t1 hb1
    refine ⟨t2, ?_, hb2, by simp, ?_, ?_⟩
    · rw [List.foldlM_cons, hstep]
      exact hfold
    · intro _
      cases xs with
      | nil =>
        rw [hnil2 rfl]
        exact hk1
      | cons y ys =>
        have hmem : (n, p) ∈ keys t1 := by
          rw [hk1]
          by_cases hc : (n, p) ∈ keys t
          · rw [if_pos hc]; exact hc
          · rw [if_neg hc]
            exact List.mem_append_right _ (List.mem_singleton_self _)
        rw [hk2 (by simp), if_pos hmem]
        exact hk1
    · intro hv hx
      exact hva2 (hva1 hv (hx x (List.mem_cons_self x xs)))
        (fun y hy => hx y (List.mem_cons_of_mem x hy))

theorem processRecord_spec (t t2 : List Service) (c : XmlChild) (hb : IsBuilding t)
    (h : processRecord t c = Except.ok t2) :
    IsBuilding t2 ∧
    keys t2 = (match contributedKey c with
               | none => keys t
               | some k => if k ∈ keys t then keys t else keys t ++ [k]) ∧
    (PortsValid t → PortsValid t2) := by
  unfold processRecord at h
  by_cases htag : c.tag = TAG_RECORD
  · rw [if_neg (by simp [htag])] at h
    cases hp : parse_record c with
    | none =>
      rw [hp] at h
      cases h
      refine ⟨hb, ?_, fun hv => hv⟩
      rw [show contributedKey c = none by rw [contributedKey, if_pos htag, hp]; rfl]
    | some r =>
      obtain ⟨n, pr, q⟩ := r
      rw [hp] at h
      dsimp only at h
      cases hr : resolvePortSpec q with
      | error e =>
        rw [hr] at h
        cases h
      | ok l =>
        rw [hr] at h
        dsimp only at h
        obtain ⟨t2', hfold, hb2, _, hk2, hva2⟩ :=
          foldAdd_spec n pr l t hb
        rw [hfold] at h
        cases h
        have hck : contributedKey c = some (n, pr) := by
          rw [contributedKey, if_pos htag, hp]
          rfl
        refine ⟨hb2, ?_, ?_⟩
        · rw [hck]
          exact hk2 (resolvePortSpec_ok_ne_nil q l hr)
        · intro hv
          exact hva2 hv (resolvePortSpec_ok_bounds q l hr)
  · rw [if_pos (by simp [htag])] at h
    cases h
    refine ⟨hb, ?_, fun hv => hv⟩
    rw [show contributedKey c = none by rw [contributedKey, if_neg htag]]

theorem buildAux_spec :
    ∀ (children : List XmlChild) (t0 t : List Service), IsBuilding t0 →
    children.foldlM processRecord t0 = Except.ok t →
    IsBuilding t ∧ keys t = keys t0 ++ newKeysFrom (keys t0) (contribKeys children) ∧
    (PortsValid t0 → PortsValid t)
  | [], t0, t, hb, h => by
    rw [List.foldlM_nil] at h
    cases h
    exact ⟨hb, by simp [contribKeys, newKeysFrom], fun hv => hv⟩
  | c :: cs, t0, t, hb, h => by
    rw [List.foldlM_cons] at h
    cases hstep : processRecord t0 c with
    | error e =>
      rw [hstep] at h
      cases h
    | ok t1 =>
      rw [hstep] at h
      obtain ⟨hb1, hk1, hva1⟩ := processRecord_spec t0 t1 c hb hstep
      obtain ⟨hb2, hk2, hva2⟩ := buildAux_spec cs t1 t hb1 h
      refine ⟨hb2, ?_, fun hv => hva2 (hva1 hv)⟩
      cases hck : contributedKey c with
      | none =>
        rw [hck] at hk1
        dsimp only at hk1
        rw [hk2, hk1, show contribKeys (c :: cs) = contribKeys cs by
          simp [contribKeys, List.filterMap_cons, hck]]
      | some k =>
        rw [hck] at hk1
        have hcons : contribKeys (c :: cs) = k :: contribKeys cs := by
          simp [contribKeys, List.filterMap_cons, hck]
        rw [hcons]
        dsimp only at hk1
        by_cases hmem : k ∈ keys t0
        · rw [if_pos hmem] at hk1
          rw [hk2, hk1, newKeysFrom_cons, if_pos hmem]
        · rw [if_neg hmem] at hk1
          rw [hk2, hk1, newKeysFrom_cons, if_neg hmem]
          simp [List.append_assoc]

theorem buildTable_spec (children : List XmlChild) (t : List Service)
    (h : buildTable children = Except.ok t) :
    IsBuilding t ∧ PortsValid t ∧ keys t = firstEncounterKeys (contribKeys children) := by
  have hb0 : IsBuilding ([] : List Service) := fun e he => absurd he (List.not_mem_nil e)
  obtain ⟨hb, hk, hva⟩ := buildAux_spec children [] t hb0 h
  refine ⟨hb, hva (fun e he => absurd he (List.not_mem_nil e)), ?_⟩
  rw [hk]
  rfl

theorem newKeysFrom_disjoint_nodup :
    ∀ (l seen : List (String × String)),
    (∀ k ∈ newKeysFrom seen l, k ∉ seen) ∧ (newKeysFrom seen l).Nodup
  | [], _ => ⟨fun k hk => absurd hk (List.not_mem_nil k), List.nodup_nil⟩
  | k :: ks, seen => by
    unfold newKeysFrom
    by_cases hmem : k ∈ seen
    · rw [if_pos hmem]
      exact newKeysFrom_disjoint_nodup ks seen
    · rw [if_neg hmem]
      obtain ⟨hdisj, hnd⟩ := newKeysFrom_disjoint_nodup ks (seen ++ [k])
      constructor
      · intro k2 hk2
        rcases List.mem_cons.mp hk2 with rfl | h2
        · exact hmem
        · intro hc
          exact hdisj k2 h2 (List.mem_append_left _ hc)
      · rw [List.nodup_cons]
        refine ⟨?_, hnd⟩
        intro hc
        exact hdisj k hc (List.mem_append_right _ (List.mem_singleton_self k))

theorem fold_same_key (n p : String) :
    ∀ (l : List Int) (ps : Finset Int),
    l.foldlM (fun t x => tableAdd t n p x) [⟨n, p, Sum.inl ps⟩] =
      Except.ok [⟨n, p, Sum.inl (ps ∪ l.toFinset)⟩]
  | [], ps => by
    rw [List.foldlM_nil]
    simp
    rfl
  | x :: xs, ps => by
    rw [List.foldlM_cons]
    have hstep : tableAdd [⟨n, p, Sum.inl ps⟩] n p x =
        Except.ok [⟨n, p, Sum.inl (insert x ps)⟩] := by
      simp [tableAdd, updateEntry, Service.add_port]
    rw [hstep]
    show List.foldlM (fun t x => tableAdd t n p x) [⟨n, p, Sum.inl (insert x ps)⟩] xs =
      Except.ok [⟨n, p, Sum.inl (ps ∪ (x :: xs).toFinset)⟩]
    rw [fold_same_key n p xs (insert x ps)]
    rw [List.toFinset_cons, Finset.union_insert, ← Finset.insert_union]

theorem fold_fresh_key (n p : String) (l : List Int) (hne : l ≠ []) :
    l.foldlM (fun t x => tableAdd t n p x) [] =
      Except.ok [⟨n, p, Sum.inl l.toFinset⟩] := by
  cases l with
  | nil => exact absurd rfl hne
  | cons x xs =>
    rw [List.foldlM_cons]
    have hstep : tableAdd [] n p x = Except.ok [⟨n, p, Sum.inl {x}⟩] := by
      simp [tableAdd, Service.init]
    rw [hstep]
    show List.foldlM (fun t x => tableAdd t n p x) [⟨n, p, Sum.inl {x}⟩] xs =
      Except.ok [⟨n, p, Sum.inl (x :: xs).toFinset⟩]
    rw [fold_same_key n p xs {x}]
    rw [List.toFinset_cons]
    congr 2

theorem exceptFoldlM_append {α β : Type} (f : β → α → Except String β) (b : β) :
    ∀ (l l2 : List α),
    (l ++ l2).foldlM f b = (l.foldlM f b).bind (fun b2 => l2.foldlM f b2)
  | [], l2 => by
    rw [List.nil_append, List.foldlM_nil]
    rfl
  | a :: l, l2 => by
    rw [List.cons_append, List.foldlM_cons, List.foldlM_cons]
    cases f b a with
    | error e => rfl
    | ok b1 =>
      show (l ++ l2).foldlM f b1 = (l.foldlM f b1).bind _
      exact exceptFoldlM_append f b1 l l2

theorem add_port_after_finalize (s : Service) (x : Int) :
    (s.finalize).add_port x = Except.error attrErrMsg := by
  rcases s with ⟨nm, pr, po⟩
  cases po <;> rfl

theorem finalize_ports_of_building (e : Service) (ps : Finset Int)
    (hps : e.ports = Sum.inl ps) :
    e.finalize.ports = Sum.inr (e.sortedPorts.map (fun x => toString x)) := by
  rcases e with ⟨nm, pr, po⟩
  simp only at hps
  subst hps
  rfl

theorem sortedPorts_of_building (e : Service) (ps : Finset Int)
    (hps : e.ports = Sum.inl ps) : e.sortedPorts = ps.sort (· ≤ ·) := by
  rcases e with ⟨nm, pr, po⟩
  simp only at hps
  subst hps
  rfl

theorem invalidPortMsg_ne_small (s : String) (n : Int) :
    invalidPortMsg s ≠ portTooSmallMsg n := by
  intro h
  have h2 : (invalidPortMsg s).data.head? = (portTooSmallMsg n).data.head? := by rw [h]
  rw [show (invalidPortMsg s).data.head? = some 'E' from rfl,
      show (portTooSmallMsg n).data.head? = some 'P' from rfl] at h2
  cases h2

theorem invalidPortMsg_ne_large (s : String) (n : Int) :
    invalidPortMsg s ≠ portTooLargeMsg n := by
  intro h
  have h2 : (invalidPortMsg s).data.head? = (portTooLargeMsg n).data.head? := by rw [h]
  rw [show (invalidPortMsg s).data.head? = some 'E' from rfl,
      show (portTooLargeMsg n).data.head? = some 'P' from rfl] at h2
  cases h2

theorem outputLines_of_ok (children : List XmlChild) (t : List Service)
    (h : buildTable children = Except.ok t) :
    outputLines children = Except.ok (headerLines ++ t.map emitEntry ++ footerLines) := by
  unfold outputLines
  rw [h]
  rfl

/-- C1: a port-spec splitting on the dash into exactly two segments, each a
valid port, resolves to exactly the integers of the inclusive interval from
the smaller to the larger bound; reversed bounds are swapped, never
rejected (so "20-21" and "21-20" both yield the ports 20 and 21). -/
theorem range_spec_expands_inclusive_interval (s a b : String) (pa pb x : Int)
    (hs : splitDash s = [a, b])
    (ha : verify_port a = Except.ok pa) (hb : verify_port b = Except.ok pb) :
    resolvePortSpec s = Except.ok (pyRange (min pa pb) (max pa pb)) ∧
    (x ∈ pyRange (min pa pb) (max pa pb) ↔ min pa pb ≤ x ∧ x ≤ max pa pb) :=
  ⟨resolve_two_segments s a b pa pb hs ha hb, mem_pyRange x _ _⟩

/-- C1 witness: the reversed range "21-20" resolves to the expansion of the
interval from 20 to 21, which contains 20. -/
theorem range_spec_expands_inclusive_interval_witness :
    resolvePortSpec "21-20" = Except.ok (pyRange (min 21 20) (max 21 20)) ∧
    ((20 : Int) ∈ pyRange (min 21 20) (max 21 20) ↔
      min (21 : Int) 20 ≤ 20 ∧ (20 : Int) ≤ max 21 20) :=
  range_spec_expands_inclusive_interval "21-20" "21" "20" 21 20 20 rfl rfl rfl

/-- C2: two records (tag `record`, all three fields present) whose names
and protocols agree after lowercasing, whatever their original casing,
merge into the single entry created at the first sighting, whose port set
is the union of both records' resolved ports (a port contributed twice is
recorded once, the sets being sets). -/
theorem merge_case_insensitive_key (r1 r2 : XmlChild) (a1 a2 b1 b2 q1 q2 : String)
    (l1 l2 : List Int)
    (ht1 : r1.tag = TAG_RECORD) (ht2 : r2.tag = TAG_RECORD)
    (hn1 : r1.nameText = some a1) (hn2 : r2.nameText = some a2)
    (hp1 : r1.protocolText = some b1) (hp2 : r2.protocolText = some b2)
    (hq1 : r1.portText = some q1) (hq2 : r2.portText = some q2)
    (hkn : pyLower a1 = pyLower a2) (hkp : pyLower b1 = pyLower b2)
    (hl1 : resolvePortSpec (pyLower q1) = Except.ok l1)
    (hl2 : resolvePortSpec (pyLower q2) = Except.ok l2) :
    buildTable [r1, r2] =
      Except.ok [⟨pyLower a1, pyLower b1, Sum.inl (l1.toFinset ∪ l2.toFinset)⟩] := by
  unfold buildTable
  rw [List.foldlM_cons]
  have hpr1 : parse_record r1 = some (pyLower a1, pyLower b1, pyLower q1) := by
    simp [parse_record, hn1, hp1, hq1]
  have hstep1 : processRecord [] r1 =
      Except.ok [⟨pyLower a1, pyLower b1, Sum.inl l1.toFinset⟩] := by
    unfold processRecord
    rw [if_neg (by simp [ht1]), hpr1]
    dsimp only
    rw [hl1]
    dsimp only
    exact fold_fresh_key _ _ l1 (resolvePortSpec_ok_ne_nil _ l1 hl1)
  rw [hstep1]
  show List.foldlM processRecord [⟨pyLower a1, pyLower b1, Sum.inl l1.toFinset⟩] [r2] = _
  rw [List.foldlM_cons]
  have hpr2 : parse_record r2 = some (pyLower a2, pyLower b2, pyLower q2) := by
    simp [parse_record, hn2, hp2, hq2]
  have hstep2 : processRecord [⟨pyLower a1, pyLower b1, Sum.inl l1.toFinset⟩] r2 =
      Except.ok [⟨pyLower a1, pyLower b1, Sum.inl (l1.toFinset ∪ l2.toFinset)⟩] := by
    unfold processRecord
    rw [if_neg (by simp [ht2]), hpr2]
    dsimp only
    rw [hl2]
    dsimp only
    rw [← hkn, ← hkp]
    exact fold_same_key (pyLower a1) (pyLower b1) l2 l1.toFinset
  rw [hstep2]
  rfl

/-- C2 witness: the records HTTP/TCP/80 and http/tcp/80 merge into one
entry keyed http/tcp whose port set is the single port 80. -/
theorem merge_case_insensitive_key_witness :
    buildTable [⟨TAG_RECORD, some "HTTP", some "TCP", some "80"⟩,
                ⟨TAG_RECORD, some "http", some "tcp", some "80"⟩] =
      Except.ok [⟨pyLower "HTTP", pyLower "TCP",
        Sum.inl (([80] : List Int).toFinset ∪ ([80] : List Int).toFinset)⟩] :=
  merge_case_insensitive_key
    ⟨TAG_RECORD, some "HTTP", some "TCP", some "80"⟩
    ⟨TAG_RECORD, some "http", some "tcp", some "80"⟩
    "HTTP" "http" "TCP" "tcp" "80" "80" [80] [80]
    rfl rfl rfl rfl rfl rfl rfl rfl rfl rfl rfl rfl

/-- C3: in a successfully built table, every entry's finalized port
sequence is the strictly ascending (hence repeat-free) sort of its port
set, and every port in it lies between 0 and 65535. -/
theorem entry_ports_sorted_and_bounded (children : List XmlChild)
    (t : List Service) (e : Service) (x : Int)
    (h : buildTable children = Except.ok t) (he : e ∈ t)
    (hx : x ∈ e.sortedPorts) :
    List.Sorted (· < ·) e.sortedPorts ∧ (0 ≤ x ∧ x ≤ 65535) ∧
    e.finalize.ports = Sum.inr (e.sortedPorts.map (fun y => toString y)) := by
  obtain ⟨hb, hv, _⟩ := buildTable_spec children t h
  obtain ⟨ps, hps⟩ := hb e he
  have hsp := sortedPorts_of_building e ps hps
  refine ⟨?_, ?_, finalize_ports_of_building e ps hps⟩
  · rw [hsp]
    exact Finset.sort_sorted_lt ps
  · rw [hsp, Finset.mem_sort] at hx
    have := hv e he ps hps x hx
    omega

/-- C3 witness: the one-record table for foo/tcp/80 has the entry with the
sorted port sequence of the set containing 80, with 80 in bounds. -/
theorem entry_ports_sorted_and_bounded_witness :
    List.Sorted (· < ·) (Service.sortedPorts ⟨"foo", "tcp", Sum.inl {80}⟩) ∧
    ((0 : Int) ≤ 80 ∧ (80 : Int) ≤ 65535) ∧
    (Service.finalize ⟨"foo", "tcp", Sum.inl {80}⟩).ports =
      Sum.inr ((Service.sortedPorts ⟨"foo", "tcp", Sum.inl {80}⟩).map
        (fun y => toString y)) :=
  entry_ports_sorted_and_bounded
    [⟨TAG_RECORD, some "foo", some "tcp", some "80"⟩]
    [⟨"foo", "tcp", Sum.inl {80}⟩] ⟨"foo", "tcp", Sum.inl {80}⟩ 80
    rfl (List.mem_singleton_self _)
    (by rw [sortedPorts_of_building _ {80} rfl, Finset.mem_sort]; decide)

/-- C4: a port token that `int` cannot parse, or whose value is negative
or at least 65536, makes `verify_port` fail, and the error message is the
generic one naming the offending literal and the range 0 - 65,535
inclusive (shown by its explicit shape in the second conjunct). -/
theorem invalid_port_fails_with_generic_message (s : String)
    (h : ∀ n : Int, pyInt s = some n → n < 0 ∨ 65536 ≤ n) :
    verify_port s = Except.error (invalidPortMsg s) ∧
    invalidPortMsg s =
      "Expected port to either be a number (i.e. sequence of digits), in the range 0 - 65,535 (inclusive) bit it was \x27" ++ s ++ "\x27" := by
  refine ⟨?_, rfl⟩
  have hget : ∀ e0, verify_port_try s = Except.error e0 →
      verify_port s = Except.error (invalidPortMsg s) := by
    intro e0 he
    unfold verify_port
    rw [he]
  cases hp : pyInt s with
  | none =>
    apply hget (pyIntErrMsg s)
    unfold verify_port_try
    rw [hp]
  | some m =>
    rcases h m hp with h1 | h1
    · apply hget (portTooSmallMsg m)
      unfold verify_port_try
      rw [hp]
      dsimp only
      rw [if_pos h1]
    · apply hget (portTooLargeMsg m)
      unfold verify_port_try
      rw [hp]
      dsimp only
      have hpow : (2 : Int) ^ 16 = 65536 := by norm_num
      rw [if_neg (by omega), if_pos (by rw [ge_iff_le, hpow]; omega)]

/-- C4 witness: the out-of-range port "65536" fails with the generic
message naming the literal and the range. -/
theorem invalid_port_fails_with_generic_message_witness :
    verify_port "65536" = Except.error (invalidPortMsg "65536") ∧
    invalidPortMsg "65536" =
      "Expected port to either be a number (i.e. sequence of digits), in the range 0 - 65,535 (inclusive) bit it was \x27" ++ "65536" ++ "\x27" := by
  apply invalid_port_fails_with_generic_message "65536"
  intro n hn
  rw [show pyInt "65536" = some 65536 from rfl] at hn
  cases hn
  omega

/-- C5: a port-spec whose dash-split has neither one nor two segments
fails with the `InvalidPortFormat` error message, which names the
malformed spec (shown by its explicit shape in the second conjunct). -/
theorem malformed_spec_fails_invalid_format (s : String)
    (h1 : (splitDash s).length ≠ 1) (h2 : (splitDash s).length ≠ 2) :
    resolvePortSpec s = Except.error (invalidFormatMsg s) ∧
    invalidFormatMsg s =
      "Expected port to either be a number (i.e. sequence of digits) or a range (i.e. two sequences of digits separated by a dash \x27-\x27). Instead, port was \x27" ++ s ++ "\x27" := by
  refine ⟨?_, rfl⟩
  unfold resolvePortSpec
  rcases hs : splitDash s with _ | ⟨a, _ | ⟨b, _ | ⟨c, rest⟩⟩⟩
  · rfl
  · exact absurd (by rw [hs]; rfl) h1
  · exact absurd (by rw [hs]; rfl) h2
  · rfl

/-- C5 witness: the spec "1-2-3" (three segments) fails with the
`InvalidPortFormat` message naming the spec. -/
theorem malformed_spec_fails_invalid_format_witness :
    resolvePortSpec "1-2-3" = Except.error (invalidFormatMsg "1-2-3") ∧
    invalidFormatMsg "1-2-3" =
      "Expected port to either be a number (i.e. sequence of digits) or a range (i.e. two sequences of digits separated by a dash \x27-\x27). Instead, port was \x27" ++ "1-2-3" ++ "\x27" :=
  malformed_spec_fails_invalid_format "1-2-3" (by decide) (by decide)

/-- C6: a record one of whose three fields is absent (ElementTree reports
a missing subelement and an empty, text-less subelement both as `None`) is
skipped silently: the parser returns the skip signal, the table is left
unchanged, and a run on the input with the record removed is identical. -/
theorem incomplete_record_skipped (child : XmlChild) (pre post : List XmlChild)
    (t : List Service)
    (h : child.nameText = none ∨ child.protocolText = none ∨ child.portText = none) :
    parse_record child = none ∧ processRecord t child = Except.ok t ∧
    buildTable (pre ++ child :: post) = buildTable (pre ++ post) := by
  have hparse : parse_record child = none := by
    rcases h with h | h | h <;>
      cases hn : child.nameText <;> cases hq : child.protocolText <;>
        cases hr : child.portText <;> simp_all [parse_record]
  have hstep : ∀ t2 : List Service, processRecord t2 child = Except.ok t2 := by
    intro t2
    unfold processRecord
    by_cases htag : child.tag = TAG_RECORD
    · rw [if_neg (by simp [htag]), hparse]
    · rw [if_pos (by simp [htag])]
  refine ⟨hparse, hstep t, ?_⟩
  unfold buildTable
  rw [exceptFoldlM_append, exceptFoldlM_append]
  cases hpre : List.foldlM processRecord [] pre with
  | error e => rfl
  | ok t0 =>
    show (List.foldlM processRecord t0 (child :: post)) = List.foldlM processRecord t0 post
    rw [List.foldlM_cons, hstep t0]
    rfl

/-- C6 witness: a record with no name text is skipped and a run on just
that record equals a run on no records. -/
theorem incomplete_record_skipped_witness :
    parse_record ⟨TAG_RECORD, none, some "tcp", some "80"⟩ = none ∧
    processRecord [] ⟨TAG_RECORD, none, some "tcp", some "80"⟩ = Except.ok [] ∧
    buildTable ([] ++ ⟨TAG_RECORD, none, some "tcp", some "80"⟩ :: []) =
      buildTable ([] ++ []) :=
  incomplete_record_skipped ⟨TAG_RECORD, none, some "tcp", some "80"⟩ [] [] []
    (Or.inl rfl)

/-- C7: the output is produced by finalizing each built entry exactly once
in the emit loop, after the whole input has been consumed by `buildTable`;
entries of the built table are still un-finalized sets, finalization
converts the set into the sorted string sequence, and a finalized entry
accepts no further mutation — `add_port` on it fails (`AttributeError`). -/
theorem finalize_once_then_frozen (children : List XmlChild)
    (t : List Service) (e : Service) (x : Int)
    (h : buildTable children = Except.ok t) (he : e ∈ t) :
    outputLines children = Except.ok (headerLines ++ t.map emitEntry ++ footerLines) ∧
    e.ports.isLeft = true ∧
    e.finalize.ports = Sum.inr (e.sortedPorts.map (fun y => toString y)) ∧
    e.finalize.add_port x = Except.error attrErrMsg := by
  obtain ⟨hb, _, _⟩ := buildTable_spec children t h
  obtain ⟨ps, hps⟩ := hb e he
  exact ⟨outputLines_of_ok children t h, by rw [hps]; rfl,
    finalize_ports_of_building e ps hps, add_port_after_finalize e x⟩

/-- C7 witness: for the one-record run foo/tcp/80, the output finalizes
the single entry once, and adding a port to the finalized entry fails. -/
theorem finalize_once_then_frozen_witness :
    outputLines [⟨TAG_RECORD, some "foo", some "tcp", some "80"⟩] =
      Except.ok (headerLines ++
        [Service.mk "foo" "tcp" (Sum.inl {80})].map emitEntry ++ footerLines) ∧
    (Service.mk "foo" "tcp" (Sum.inl {80})).ports.isLeft = true ∧
    (Service.mk "foo" "tcp" (Sum.inl {80})).finalize.ports =
      Sum.inr ((Service.mk "foo" "tcp" (Sum.inl {80})).sortedPorts.map
        (fun y => toString y)) ∧
    (Service.mk "foo" "tcp" (Sum.inl {80})).finalize.add_port 81 =
      Except.error attrErrMsg :=
  finalize_once_then_frozen [⟨TAG_RECORD, some "foo", some "tcp", some "80"⟩]
    [⟨"foo", "tcp", Sum.inl {80}⟩] ⟨"foo", "tcp", Sum.inl {80}⟩ 81
    rfl (List.mem_singleton_self _)

/-- C8: the emitted artifact always contains the fallback arm, and the
lookup it denotes reports, for every queried pair whose lowercased key is
not in the table, a structured `UnknownMnemonic` failure carrying the
queried service and protocol — never a silent empty result. -/
theorem unknown_key_reports_structured_failure (children : List XmlChild)
    (t : List Service) (s p : String)
    (h : buildTable children = Except.ok t)
    (habs : (pyLower s, pyLower p) ∉ keys t) :
    generatedLookup t s p = Except.error (s, p) ∧
    outputLines children = Except.ok (headerLines ++ t.map emitEntry ++ footerLines) ∧
    fallbackLine ∈ footerLines := by
  refine ⟨?_, outputLines_of_ok children t h, List.mem_cons_self _ _⟩
  unfold generatedLookup
  rw [List.find?_eq_none.mpr]
  intro e he hc
  apply habs
  rw [Bool.and_eq_true, beq_iff_eq, beq_iff_eq] at hc
  have : e.key = (pyLower s, pyLower p) := by
    rw [Service.key, hc.1, hc.2]
  rw [← this]
  exact List.mem_map_of_mem Service.key he

/-- C8 witness: on the empty table, looking up foo/tcp reports the pair as
a structured failure, and the emitted artifact contains the fallback arm. -/
theorem unknown_key_reports_structured_failure_witness :
    generatedLookup [] "foo" "tcp" = Except.error ("foo", "tcp") ∧
    outputLines [] = Except.ok (headerLines ++ ([] : List Service).map emitEntry ++ footerLines) ∧
    fallbackLine ∈ footerLines :=
  unknown_key_reports_structured_failure [] [] "foo" "tcp" rfl (by simp [keys])

/-- C9: a successful run determines the table as a function of the input:
its keys are exactly the distinct contributed keys in order of first
encounter, with no duplicate key (one emitted record per key), and the
output lists one emitted line per entry in that order. -/
theorem deterministic_table_first_encounter_order (children : List XmlChild)
    (t : List Service) (h : buildTable children = Except.ok t) :
    keys t = firstEncounterKeys (contribKeys children) ∧
    (keys t).Nodup ∧
    outputLines children = Except.ok (headerLines ++ t.map emitEntry ++ footerLines) := by
  obtain ⟨_, _, hk⟩ := buildTable_spec children t h
  refine ⟨hk, ?_, outputLines_of_ok children t h⟩
  rw [hk]
  exact (newKeysFrom_disjoint_nodup (contribKeys children) []).2

/-- C9 witness: a two-record run produces the two keys in first-encounter
order, without duplicates, and the corresponding output lines. -/
theorem deterministic_table_first_encounter_order_witness :
    keys [⟨"foo", "tcp", Sum.inl {80}⟩, ⟨"bar", "udp", Sum.inl {53}⟩] =
      firstEncounterKeys (contribKeys
        [⟨TAG_RECORD, some "foo", some "tcp", some "80"⟩,
         ⟨TAG_RECORD, some "bar", some "udp", some "53"⟩]) ∧
    (keys [⟨"foo", "tcp", Sum.inl {80}⟩, ⟨"bar", "udp", Sum.inl {53}⟩]).Nodup ∧
    outputLines [⟨TAG_RECORD, some "foo", some "tcp", some "80"⟩,
                 ⟨TAG_RECORD, some "bar", some "udp", some "53"⟩] =
      Except.ok (headerLines ++
        [Service.mk "foo" "tcp" (Sum.inl {80}),
         Service.mk "bar" "udp" (Sum.inl {53})].map emitEntry ++ footerLines) :=
  deterministic_table_first_encounter_order
    [⟨TAG_RECORD, some "foo", some "tcp", some "80"⟩,
     ⟨TAG_RECORD, some "bar", some "udp", some "53"⟩]
    [⟨"foo", "tcp", Sum.inl {80}⟩, ⟨"bar", "udp", Sum.inl {53}⟩] rfl

/-- C10: whenever `verify_port` rejects its input, the surfaced error is
the single generic message built from the original string argument; the
dedicated "Port too small" / "Port too large" messages raised inside the
`try` block are replaced by the bare `except` and are never observable. -/
theorem rejection_message_always_generic (s e : String) (n m : Int)
    (h : verify_port s = Except.error e) :
    e = invalidPortMsg s ∧ e ≠ portTooSmallMsg n ∧ e ≠ portTooLargeMsg m := by
  have he := verify_port_error_msg s e h
  subst he
  exact ⟨rfl, invalidPortMsg_ne_small s n, invalidPortMsg_ne_large s m⟩

/-- C10 witness: rejecting "-1" surfaces the generic message, not the
dedicated "Port too small" message its value would select in the `try`
block. -/
theorem rejection_message_always_generic_witness :
    invalidPortMsg "-1" = invalidPortMsg "-1" ∧
    invalidPortMsg "-1" ≠ portTooSmallMsg (-1) ∧
    invalidPortMsg "-1" ≠ portTooLargeMsg (-1) :=
  rejection_message_always_generic "-1" (invalidPortMsg "-1") (-1) (-1) rfl

end PortAssignments
